import Mathlib

set_option autoImplicit false

/-! Shallow embedding of the forml repository sources, covering the ETL DSL
(`forml/etl/dsl/schema/frame.py`), the extraction utilities
(`forml/io/etl/extract.py`), the actor wrappers
(`forml/lib/flow/actor/wrapped.py`) and the assembly linker
(`forml/runtime/assembly/__init__.py`, `forml/testing/facility.py`).
Python machine-level details are modelled explicitly: exceptions as an
`Except PyErr` result, Python truthiness as a `truthy` predicate, Python
slicing/indexing as clamped list operations. -/

/-- Error kinds raised by the embedded code: the forml error hierarchy
(`Invalid`, `Missing`, `Unexpected` from `forml/error.py`) plus the Python
builtin exceptions the sources can raise. -/
inductive PyErr where
  | invalid
  | missing
  | unexpected
  | typeError
  | valueError
  | assertionError
  | indexError
  deriving DecidableEq, Repr

/-- Native values (`forml.io.dsl.schema.kind.Native`): primitive Python values
used as ordinal bounds. Modelled by the integer and string cases. -/
inductive Native where
  | int (n : Int)
  | str (s : String)
  deriving DecidableEq, Repr

/-- Python truthiness of a native value (`if lower:` in
`Statement.Prepared.__call__`): `0` and `""` are falsy. -/
def Native.truthy : Native → Bool
  | .int n => n != 0
  | .str s => s != ""

/-- Truthiness of an optional native value: `None` is falsy. -/
def truthyOpt : Option Native → Bool
  | none => false
  | some v => v.truthy

/-- Column reference (`forml.io.dsl.schema.series.Element`): an opaque named
column used in filter expressions. -/
structure Element where
  name : String
  deriving DecidableEq, Repr

/-- Filter expressions built by `Statement.Prepared.__call__`:
`ordinal >= lower` and `ordinal < upper`. -/
inductive Cond where
  | geq (e : Element) (v : Native)
  | lt (e : Element) (v : Native)
  deriving DecidableEq, Repr

/-- Join kinds of `statement.Join.Kind` (`inner|left|right|full|cross`). -/
inductive JoinKind where
  | inner
  | left
  | right
  | full
  | cross
  deriving DecidableEq, Repr

/-- Set-operation kinds of `statement.Set.Kind`. -/
inductive SetKind where
  | union
  | intersection
  | difference
  deriving DecidableEq, Repr

/-- Ordering directions of `statement.Ordering.Direction`. -/
inductive OrdDir where
  | ascending
  | descending
  deriving DecidableEq, Repr

/-- Schema identity (`Table.Schema` metaclass): a schema type is identified by
its defining module and qualified name, which alone feed `__hash__`. -/
structure Schema where
  module : String
  qualname : String
  deriving DecidableEq, Repr

/-- Table source (`frame.Table`): a tuple holding exactly its schema. The
`oid` field models the Python object identity of the particular instance; the
source never consults it in `__hash__`/`__eq__`. -/
structure Table where
  schema : Schema
  oid : Nat
  deriving DecidableEq, Repr

/-- Row window (`statement.Rows(count, offset)`). -/
structure Rows where
  count : Int
  offset : Int
  deriving DecidableEq, Repr

/-- Modelled from the spec: `forml/etl/dsl/statement.py` is not under `src/`;
per the spec (section 4.1), `limit(count, offset)` fails with `Invalid` if
`count < 0` or `offset < 0`, which places the check in the `Rows` window
construction that `Table.limit` delegates to. -/
def Rows.make (count offset : Int) : Except PyErr Rows :=
  if count < 0 || offset < 0 then .error .invalid else .ok ⟨count, offset⟩

/-- Sources a query can range over (`frame.Source`): a table, a join of two
sources (`statement.Join`) or a set combination (`statement.Set`). -/
inductive Source where
  | table (t : Table)
  | join (lhs rhs : Source) (cond : Cond) (kind : Option JoinKind)
  | setop (lhs rhs : Source) (kind : SetKind)
  deriving DecidableEq, Repr

/-- Query value (`statement.Query`): immutable aggregate of a source with
optional projection, pre/post filters, grouping, ordering and row window.
Conjoined filter conditions are kept as ordered lists. -/
structure Query where
  source : Source
  columns : List Element
  prefilter : List Cond
  postfilter : List Cond
  grouping : List Element
  ordering : List (Element × OrdDir)
  rows : Option Rows
  deriving DecidableEq, Repr

/-- Query over a bare source with no other clauses (`statement.Query(source)`). -/
def Query.ofSource (s : Source) : Query :=
  ⟨s, [], [], [], [], [], none⟩

/-- Conjoin one more pre-filter condition (`Query.where`): the new condition
is appended after the existing ones. -/
def Query.where' (q : Query) (c : Cond) : Query :=
  { q with prefilter := q.prefilter ++ [c] }

/-- Statement bound with a query and optional ordinal column
(`extract.Statement.Prepared`). -/
structure Prepared where
  query : Query
  ordinal : Option Element
  deriving DecidableEq, Repr

/-- Calling a prepared statement (`Statement.Prepared.__call__`): with an
ordinal column defined, a truthy lower bound conjoins `ordinal >= lower` and a
truthy upper bound conjoins `ordinal < upper`; without an ordinal column a
truthy bound raises `Unexpected`. -/
def Prepared.call (p : Prepared) (lower upper : Option Native) : Except PyErr Query :=
  match p.ordinal with
  | some o =>
      let q1 := match lower with
        | some l => if l.truthy then p.query.where' (.geq o l) else p.query
        | none => p.query
      let q2 := match upper with
        | some u => if u.truthy then q1.where' (.lt o u) else q1
        | none => q1
      .ok q2
  | none =>
      if truthyOpt lower || truthyOpt upper then .error .unexpected else .ok p.query

/-- Select statement with bound parameters (`extract.Statement`). -/
structure Statement where
  prepared : Prepared
  lower : Option Native
  upper : Option Native
  deriving DecidableEq, Repr

/-- Binding of lower/upper parameters (`Statement.prepare`). -/
def Statement.prepare (query : Query) (ordinal : Option Element)
    (lower upper : Option Native) : Statement :=
  ⟨⟨query, ordinal⟩, lower, upper⟩

/-- Expansion of the statement (`Statement.__call__`). -/
def Statement.call (s : Statement) : Except PyErr Query :=
  s.prepared.call s.lower s.upper

/-- Column selection used by the slicer (`typing.Union[slice, int]`): a Python
`slice(start, stop)` or a scalar index. -/
inductive Sel where
  | slc (start stop : Nat)
  | idx (i : Nat)
  deriving DecidableEq, Repr

/-- Python list slicing with non-negative bounds: `l[start:stop]` clamps both
bounds to the list length. -/
def pySlice {α : Type} (l : List α) (start stop : Nat) : List α :=
  (l.drop start).take (stop - start)

/-- Python list indexing: `l[i]` raises `IndexError` when out of range. -/
def pyGetItem {α : Type} (l : List α) (i : Nat) : Except PyErr α :=
  match l.get? i with
  | some v => .ok v
  | none => .error .indexError

/-- Result of applying a selection to a columnar batch: a column list for a
slice selection, a single column for a scalar index. -/
inductive Sliced (α : Type) where
  | many (cols : List α)
  | one (col : α)
  deriving DecidableEq, Repr

/-- Default positional slicer (`extract.Slicer.__call__`): plain `source[selection]`. -/
def Slicer.run {α : Type} (source : List α) (selection : Sel) : Except PyErr (Sliced α) :=
  match selection with
  | .slc a b => .ok (.many (pySlice source a b))
  | .idx i => (pyGetItem source i).map .one

/-- Slicer actor state (`extract.Slicer.Actor.__init__`): `_features` is
`slice(fstop)` and `_label` is `slice(fstop, fstop + lcount)` when
`lcount > 1`, else the scalar index `fstop`. -/
structure SlicerActor where
  _features : Sel
  _label : Sel
  deriving DecidableEq, Repr

/-- Construction of the slicer actor from the feature and label column lists. -/
def SlicerActor.make (features labels : List Element) : SlicerActor :=
  let fstop := features.length
  let lcount := labels.length
  { _features := .slc 0 fstop
  , _label := if lcount > 1 then .slc fstop (fstop + lcount) else .idx fstop }

/-- Column count demanded by the assertion in `Slicer.Actor.apply`:
`self._label.stop` for a slice selection, `self._label + 1` for an index. -/
def Sel.expected : Sel → Nat
  | .slc _ stop => stop
  | .idx i => i + 1

/-- Application of the slicer actor (`Slicer.Actor.apply`): asserts the column
count, then slices out features and labels. -/
def SlicerActor.apply {α : Type} (a : SlicerActor) (columns : List α) :
    Except PyErr (Sliced α × Sliced α) :=
  if columns.length = a._label.expected then do
    let f ← Slicer.run columns a._features
    let l ← Slicer.run columns a._label
    .ok (f, l)
  else .error .assertionError

/-- Stand-in for Python's string hashing: any fixed deterministic function is
faithful for the identity-based equality claims, which depend only on equal
strings hashing equally. -/
def pyhashStr (s : String) : Nat :=
  s.foldl (fun h c => (h * 31 + c.toNat) % (2 ^ 64)) 7

/-- Schema hashing (`Table.Schema.__hash__`):
`hash(cls.__module__) ^ hash(cls.__qualname__)`. -/
def Schema.hash (s : Schema) : Nat :=
  Nat.xor (pyhashStr s.module) (pyhashStr s.qualname)

/-- Schema equality (`Table.Schema.__eq__`): `hash(cls) == hash(other)`. -/
def Schema.beq (s t : Schema) : Bool :=
  Schema.hash s == Schema.hash t

/-- Table hashing (`Table.__hash__`): `hash(self.__schema__)`. -/
def Table.hash (t : Table) : Nat :=
  Schema.hash t.schema

/-- Table equality: `Table` inherits `tuple.__eq__`, which compares the single
`(schema,)` element via the schema metaclass `__eq__`. -/
def Table.beq (t u : Table) : Bool :=
  Schema.beq t.schema u.schema

/-! Fluent `Table` combinators (`frame.Table` methods). Each Python method
body only reads `self` and returns a fresh `statement.Query`; the embedding
passes the receiver state through explicitly, returning the built query
together with the receiver's state after the call, so that absence of
receiver mutation is a provable statement rather than a modelling artefact. -/

/-- Projection (`Table.select`): `Query(self, columns)`. -/
def Table.select (t : Table) (columns : List Element) : Query × Table :=
  (⟨.table t, columns, [], [], [], [], none⟩, t)

/-- Pre-filter (`Table.where`): `Query(self, prefilter=condition)`. -/
def Table.where' (t : Table) (condition : Cond) : Query × Table :=
  (⟨.table t, [], [condition], [], [], [], none⟩, t)

/-- Post-filter (`Table.having`): `Query(self, postfilter=condition)`. -/
def Table.having (t : Table) (condition : Cond) : Query × Table :=
  (⟨.table t, [], [], [condition], [], [], none⟩, t)

/-- Join (`Table.join`): `Query(Join(self, other, condition, kind))`. -/
def Table.join (t : Table) (other : Source) (condition : Cond)
    (kind : Option JoinKind) : Query × Table :=
  (Query.ofSource (.join (.table t) other condition kind), t)

/-- Grouping (`Table.groupby`): `Query(self, grouping=columns)`. -/
def Table.groupby (t : Table) (columns : List Element) : Query × Table :=
  (⟨.table t, [], [], [], columns, [], none⟩, t)

/-- Ordering (`Table.orderby`): `Query(self, ordering=columns)`. -/
def Table.orderby (t : Table) (columns : List (Element × OrdDir)) : Query × Table :=
  (⟨.table t, [], [], [], [], columns, none⟩, t)

/-- Row window (`Table.limit`): `Query(self, rows=Rows(count, offset))`. -/
def Table.limit (t : Table) (count offset : Int) : Except PyErr (Query × Table) :=
  match Rows.make count offset with
  | .ok r => .ok (⟨.table t, [], [], [], [], [], some r⟩, t)
  | .error e => .error e

/-- Set union (`Queryable.union`): `Query(Set(self, other, UNION))`. -/
def Table.union (t : Table) (other : Source) : Query × Table :=
  (Query.ofSource (.setop (.table t) other .union), t)

/-- Set intersection (`Queryable.intersection`). -/
def Table.intersection (t : Table) (other : Source) : Query × Table :=
  (Query.ofSource (.setop (.table t) other .intersection), t)

/-- Set difference (`Queryable.difference`). -/
def Table.difference (t : Table) (other : Source) : Query × Table :=
  (Query.ofSource (.setop (.table t) other .difference), t)

namespace wrapped

/-- Kinds of Python function parameters as classified by `inspect`. -/
inductive ParamKind where
  | posOnly
  | posOrKw
  | varPos
  | kwOnly
  | varKw
  deriving DecidableEq, Repr

/-- One declared parameter of a Python function signature. -/
structure Param where
  name : String
  kind : ParamKind
  deriving DecidableEq, Repr

/-- Python function value: its `inspect.isfunction` status and signature. -/
structure PyFunction where
  isFunction : Bool
  params : List Param
  deriving DecidableEq, Repr

/-- Number of parameters fillable positionally: the leading run of
positional-only / positional-or-keyword parameters. -/
def posCapacity (ps : List Param) : Nat :=
  (ps.takeWhile (fun p => p.kind == ParamKind.posOnly || p.kind == ParamKind.posOrKw)).length

/-- Signature declares a `*args` catch-all. -/
def hasVarPos (ps : List Param) : Bool :=
  ps.any (fun p => p.kind == ParamKind.varPos)

/-- Signature declares a `**kwargs` catch-all. -/
def hasVarKw (ps : List Param) : Bool :=
  ps.any (fun p => p.kind == ParamKind.varKw)

/-- Keyword `k` can name a parameter: a positional-or-keyword or keyword-only
parameter called `k` (positional-only parameters are not keyword-addressable). -/
def kwBindable (ps : List Param) (k : String) : Bool :=
  ps.any (fun p => p.name == k && (p.kind == ParamKind.posOrKw || p.kind == ParamKind.kwOnly))

/-- Semantics of `inspect.Signature.bind_partial(*args, **kwargs)` over a
signature, tracking only bindability (`args` is abstracted to its count,
`kwargs` to its key set): missing parameters are permitted, while positional
overflow without `*args`, an unknown keyword without `**kwargs`, or a keyword
for an already positionally filled parameter raise `TypeError`. -/
def bindArgs (ps : List Param) (nargs : Nat) (kwargs : List String) : Except PyErr Unit :=
  if nargs > posCapacity ps && !hasVarPos ps then .error .typeError
  else if kwargs.all (fun k =>
      (kwBindable ps k && !(((ps.take (min nargs (posCapacity ps))).map Param.name).contains k))
      || (!kwBindable ps k && hasVarKw ps)) then
    .ok ()
  else .error .typeError

/-- Function-based actor instance (`Function.Actor`): the wrapped function
with the extra positional/keyword arguments to append to the data inputs. -/
structure FunActor where
  _function : PyFunction
  nargs : Nat
  kwargs : List String
  deriving DecidableEq, Repr

/-- Construction of a function actor (`Function.Actor.__init__`): validates the
extra arguments against the function signature with its first (data) parameter
dropped, via `signature.replace(...).bind_partial(*args, **kwargs)`. An
unbindable argument propagates `bind_partial`'s `TypeError`. -/
def FunActor.make (function : PyFunction) (nargs : Nat) (kwargs : List String) :
    Except PyErr FunActor := do
  let _ ← bindArgs (function.params.drop 1) nargs kwargs
  .ok ⟨function, nargs, kwargs⟩

/-- Function wrapper value (`wrapped.Function`): the function plus the
wrap-time keyword parameters (their key names). -/
structure Function where
  _actor : PyFunction
  _params : List String
  deriving DecidableEq, Repr

/-- Wrapping a plain function (`Function.__init__` via `Function.actor`):
rejects non-functions with `ValueError`; the wrap-time keyword parameters are
stored without any signature validation. -/
def Function.make (function : PyFunction) (params : List String) :
    Except PyErr Function :=
  if !function.isFunction then .error .valueError else .ok ⟨function, params⟩

/-- Statefulness of function wrappers (`Function.is_stateful`): always false. -/
def Function.is_stateful (_w : Function) : Bool :=
  false

/-- Merge of the `{**self._params, **kwargs}` dictionary keys performed by
`Function.__call__` before instantiating the actor. -/
def mergeKw (a b : List String) : List String :=
  a.filter (fun k => !b.contains k) ++ b

/-- Actor instantiation through the wrapper (`Function.__call__`):
`self.Actor(self._actor, *args, **{**self._params, **kwargs})`. -/
def Function.call (w : Function) (nargs : Nat) (kwargs : List String) :
    Except PyErr FunActor :=
  FunActor.make w._actor nargs (mergeKw w._params kwargs)

/-- Python attribute value, abstracted to its callability. -/
structure Attr where
  callable : Bool
  deriving DecidableEq, Repr

/-- Plain Python class (not a `task.Actor` subclass): its attribute table. -/
structure PyClass where
  attrs : List (String × Attr)
  deriving DecidableEq, Repr

/-- Attribute lookup, `getattr(cls, n, None)` returning `none` for `None`. -/
def PyClass.getattr (c : PyClass) (n : String) : Option Attr :=
  (c.attrs.find? (fun p => p.1 == n)).map Prod.snd

/-- Attribute presence, `hasattr(cls, n)`. -/
def PyClass.hasattr (c : PyClass) (n : String) : Bool :=
  (c.getattr n).isSome

/-- Callability of an attribute, `callable(getattr(cls, n, None))`. -/
def PyClass.callableAttr (c : PyClass) (n : String) : Bool :=
  match c.getattr n with
  | some a => a.callable
  | none => false

/-- Dictionary `setdefault`: append the identity entry when the key is absent. -/
def setdefault (m : List (String × String)) (k : String) : List (String × String) :=
  if m.any (fun p => p.1 == k) then m else m ++ [(k, k)]

/-- Default completion of the method-name mapping (`Class.actor`): each of the
four `task.Actor` method names defaults to itself. -/
def withDefaults (m : List (String × String)) : List (String × String) :=
  setdefault (setdefault (setdefault (setdefault m "apply") "train") "get_params") "set_params"

/-- Mapping lookup, `m[k]` as an optional value. -/
def mapGet (m : List (String × String)) (k : String) : Option String :=
  (m.find? (fun p => p.1 == k)).map Prod.snd

/-- Class wrapper value (`wrapped.Class`): the wrapped class and the completed
method-name mapping. -/
structure Class where
  _actor : PyClass
  _params : List (String × String)
  deriving DecidableEq, Repr

/-- Class decorator (`Class.actor` applied to a plain class): completes the
mapping with defaults, then demands a callable attribute under every mapped
target whose mapped name is not `train`, raising `Missing` otherwise. The
`isinstance`/`issubclass` shortcuts for non-classes and genuine actors are
outside this model, which only takes plain classes. -/
def Class.actor (cls : PyClass) (mapping : List (String × String)) :
    Except PyErr Class :=
  let m := withDefaults mapping
  if ((m.filter (fun p => p.1 != "train")).all (fun p => cls.callableAttr p.2)) then
    .ok ⟨cls, m⟩
  else .error .missing

/-- Statefulness of class wrappers (`Mapping.is_stateful`):
`hasattr(self._actor, self._params['train'])`. After `withDefaults` the
`train` key is always present, so the `getD` fallback is unreachable. -/
def Class.is_stateful (w : Class) : Bool :=
  w._actor.hasattr ((mapGet w._params "train").getD "train")

end wrapped

namespace flow

/-- Modelled from the spec: `forml/flow/graph/node.py` is not under `src/`.
Per the spec (sections 3 and 4.4), a graph node is either a Worker holding an
actor spec with declared input/output arities, or a Future/Placeholder that
only reserves an identity; every node carries a process-unique `gid`. Actor
specs are abstracted to opaque names. -/
inductive GNode where
  | worker (spec : String) (szin szout : Nat) (gid : Nat)
  | future (gid : Nat)
  deriving DecidableEq, Repr

/-- Identity of a graph node. -/
def GNode.gid : GNode → Nat
  | .worker _ _ _ g => g
  | .future g => g

/-- Port subscription edge: the subscriber's input port `subPort` receives the
publisher's output port `pubPort` (`subscriber[i].subscribe(publisher[o])`). -/
structure Edge where
  pubGid : Nat
  pubPort : Nat
  subGid : Nat
  subPort : Nat
  deriving DecidableEq, Repr

/-- Modelled from the spec: `forml/flow/graph/view.py` is not under `src/`.
Per the spec, a Path is a pair of graph entry/exit handles (head and tail
node). -/
structure Path where
  head : GNode
  tail : GNode
  deriving DecidableEq, Repr

/-- Single-node path (`view.Path(node)`). -/
def Path.single (n : GNode) : Path :=
  ⟨n, n⟩

/-- Modelled from the spec: the publisher of a path is the output port 0 of
its tail node (the compose code below only builds single-output tails). -/
def Path.publisher (p : Path) : Nat × Nat :=
  (p.tail.gid, 0)

/-- Modelled from the spec: `Path.extend(tail=t)` returns a new path with the
same head and the given tail. -/
def Path.extend (p : Path) (tail : GNode) : Path :=
  ⟨p.head, tail⟩

/-- Pipeline segment (`pipeline.Segment`): apply path, train path and optional
label path. -/
structure Segment where
  apply : Path
  train : Path
  label : Option Path
  deriving DecidableEq, Repr

/-- Left operand of `Operator.compose`: the distinguished Origin marker
(`topology.Origin`) or some already composed segment. -/
inductive Composable where
  | origin
  | segment (s : Segment)
  deriving DecidableEq, Repr

/-- Source operator (`extract.Operator`): apply/train/label actor specs. -/
structure Operator where
  _apply : String
  _train : String
  _label : Option String
  deriving DecidableEq, Repr

/-- Operator construction (`Operator.__init__`): `self._train = train or
apply` defaults a missing train spec to the apply spec. -/
def Operator.make (apply : String) (train : Option String) (label : Option String) :
    Operator :=
  ⟨apply, train.getD apply, label⟩

/-- Composition of the source segment (`Operator.compose`): rejects any
non-Origin left operand with `Invalid`; otherwise builds fresh 0-input/
1-output workers for the apply and train paths and, when a label spec exists,
splices a 1-input/2-output extraction worker after the train path, its output
0 feeding a fresh train tail Future and its output 1 a fresh label tail
Future. Node identities are drawn sequentially from `g0` in construction
order; the subscription edges created are returned alongside the segment. -/
def Operator.compose (op : Operator) (left : Composable) (g0 : Nat) :
    Except PyErr (Segment × List Edge) :=
  match left with
  | .segment _ => .error .invalid
  | .origin =>
    let apply := Path.single (GNode.worker op._apply 0 1 g0)
    let train := Path.single (GNode.worker op._train 0 1 (g0 + 1))
    match op._label with
    | none => .ok (⟨apply, train, none⟩, [])
    | some l =>
      let train_tail := GNode.future (g0 + 2)
      let label_tail := GNode.future (g0 + 3)
      let extract := GNode.worker l 1 2 (g0 + 4)
      let e1 : Edge := ⟨(train.publisher).1, (train.publisher).2, extract.gid, 0⟩
      let e2 : Edge := ⟨extract.gid, 0, train_tail.gid, 0⟩
      let e3 : Edge := ⟨extract.gid, 1, label_tail.gid, 0⟩
      let train2 := train.extend train_tail
      let label := train2.extend label_tail
      .ok (⟨apply, train2, some label⟩, [e1, e2, e3])

end flow

namespace assembly

/-- Instruction of the assembled code (`assembly.Instruction`): abstracted to
the identity of the worker node whose actor call it wraps. -/
structure Instruction where
  gid : Nat
  deriving DecidableEq, Repr

/-- Assembly symbol (`assembly.Symbol`): an instruction paired with its
ordered argument instructions. -/
structure Symbol where
  instruction : Instruction
  arguments : List Instruction
  deriving DecidableEq, Repr

/-- Upstream map of a linked path: for each node identity, the ordered
identities of the producer nodes feeding its input ports. The graph machinery
holding these subscriptions (`forml/flow/graph`) is not under `src/`; the map
abstracts a frozen path's wiring. -/
abbrev Upstream : Type :=
  Nat → List Nat

/-- Symbol emitted for one worker node: its instruction applied to the
instructions of its upstream producers, one argument per input subscription. -/
def symbolOfNode (f : Upstream) (g : Nat) : Symbol :=
  ⟨⟨g⟩, (f g).map Instruction.mk⟩

/-- Node identities already present in a symbol table. -/
def tableGids (t : List Symbol) : List Nat :=
  t.map (fun s => s.instruction.gid)

/-- Modelled from the spec: `forml/runtime/assembly/symbol.py` (the Table that
`Visitor.visit_node` delegates to via `self._table.add(node)`) is not under
`src/`. Per the spec (section 4.6) and the gid-set idiom of
`testing.facility.Runner`'s node visitor, adding a node whose `gid` is already
known is a no-op; otherwise its symbol is appended. -/
def SymTable.add (f : Upstream) (t : List Symbol) (g : Nat) : List Symbol :=
  if (tableGids t).contains g then t else t ++ [symbolOfNode f g]

/-- Linking a visited path (`assembly.Visitor`): fold `visit_node` (that is,
`Table.add`) over the node visit sequence, starting from the empty table. -/
def linkPath (f : Upstream) (visits : List Nat) : List Symbol :=
  visits.foldl (SymTable.add f) []

/-- Symbols of a table carrying a given node identity. -/
def filterGid (t : List Symbol) (g : Nat) : List Symbol :=
  t.filter (fun s => s.instruction.gid == g)

end assembly

/-- Coherence of a symbol table with an upstream map: the table holds exactly
the symbol of every node identity it knows, and none for the identities it
does not. This is the induction invariant of the linking fold. -/
def assembly.coherent (f : assembly.Upstream) (t : List assembly.Symbol) : Prop :=
  ∀ g : Nat, assembly.filterGid t g
    = if g ∈ assembly.tableGids t then [assembly.symbolOfNode f g] else []

/-- Mapped target name for the `train` capability after default completion. -/
def wrapped.trainTarget (mapping : List (String × String)) : String :=
  (wrapped.mapGet (wrapped.withDefaults mapping) "train").getD "train"

/-- Example wrapped class: the three mandatory actor methods are callable,
while the `train` attribute exists but is not callable. -/
def wrapped.exClass : wrapped.PyClass :=
  ⟨[("apply", ⟨true⟩), ("get_params", ⟨true⟩), ("set_params", ⟨true⟩), ("train", ⟨false⟩)]⟩

/-- Example fan-out wiring: node 0 publishes to both node 1 and node 2. -/
def assembly.exUp : assembly.Upstream :=
  fun g => if g == 1 || g == 2 then [0] else []

@[simp] theorem Query.where'_source (q : Query) (c : Cond) : (q.where' c).source = q.source := rfl

@[simp] theorem Query.where'_columns (q : Query) (c : Cond) : (q.where' c).columns = q.columns := rfl

@[simp] theorem Query.where'_prefilter (q : Query) (c : Cond) :
    (q.where' c).prefilter = q.prefilter ++ [c] := rfl

@[simp] theorem Query.where'_postfilter (q : Query) (c : Cond) :
    (q.where' c).postfilter = q.postfilter := rfl

@[simp] theorem Query.where'_grouping (q : Query) (c : Cond) : (q.where' c).grouping = q.grouping := rfl

@[simp] theorem Query.where'_ordering (q : Query) (c : Cond) : (q.where' c).ordering = q.ordering := rfl

@[simp] theorem Query.where'_rows (q : Query) (c : Cond) : (q.where' c).rows = q.rows := rfl

/-- Claim C3 counterexample: with an undefined ordinal column, supplying the
falsy lower bound `0` does not raise `Unexpected` as the claim demands - the
call returns the base query unchanged. -/
theorem prepared_unbound_ordinal_counterexample :
    Prepared.call ⟨Query.ofSource (.table ⟨⟨"m", "q"⟩, 0⟩), none⟩ (some (.int 0)) none
      = .ok (Query.ofSource (.table ⟨⟨"m", "q"⟩, 0⟩)) ∧
    Prepared.call ⟨Query.ofSource (.table ⟨⟨"m", "q"⟩, 0⟩), none⟩ (some (.int 0)) none
      ≠ .error .unexpected := by
  refine ⟨rfl, ?_⟩
  simp [Prepared.call, truthyOpt, Native.truthy]

/-- Claim C3 (amended): for every prepared statement whose ordinal column is
undefined, calling it with a truthy lower or upper bound raises `Unexpected`,
and calling it with only falsy or absent bounds returns the base query
unchanged. -/
theorem prepared_unbound_ordinal (q : Query) (lower upper : Option Native) :
    ((truthyOpt lower || truthyOpt upper) = true →
      Prepared.call ⟨q, none⟩ lower upper = .error .unexpected) ∧
    ((truthyOpt lower || truthyOpt upper) = false →
      Prepared.call ⟨q, none⟩ lower upper = .ok q) := by
  constructor <;> intro h <;> simp [Prepared.call, h]

/-- Witness for `prepared_unbound_ordinal` at a concrete prepared statement
and bound. -/
theorem prepared_unbound_ordinal_witness :
    Prepared.call ⟨Query.ofSource (.table ⟨⟨"m", "q"⟩, 0⟩), none⟩ (some (.int 1)) none
      = .error .unexpected :=
  (prepared_unbound_ordinal (Query.ofSource (.table ⟨⟨"m", "q"⟩, 0⟩))
    (some (.int 1)) none).1 (by decide)

/-- Claim C9: two table instances whose schemas have identical module and
qualified name compare equal and hash equally, regardless of instance
identity. -/
theorem table_identity_by_schema (t u : Table)
    (h1 : t.schema.module = u.schema.module)
    (h2 : t.schema.qualname = u.schema.qualname) :
    Table.beq t u = true ∧ Table.hash t = Table.hash u := by
  have h : Schema.hash t.schema = Schema.hash u.schema := by
    unfold Schema.hash
    rw [h1, h2]
  exact ⟨by simp [Table.beq, Schema.beq, h], by simp [Table.hash, h]⟩

/-- Witness for `table_identity_by_schema` on two distinct instances (object
identities 0 and 1) of the same schema. -/
theorem table_identity_by_schema_witness :
    Table.beq ⟨⟨"m", "q"⟩, 0⟩ ⟨⟨"m", "q"⟩, 1⟩ = true ∧
    Table.hash ⟨⟨"m", "q"⟩, 0⟩ = Table.hash ⟨⟨"m", "q"⟩, 1⟩ :=
  table_identity_by_schema ⟨⟨"m", "q"⟩, 0⟩ ⟨⟨"m", "q"⟩, 1⟩ rfl rfl

/-- Claim C7: `limit(count, offset)` fails with `Invalid` when `count < 0` or
`offset < 0`, and otherwise returns a new Query carrying the row window. -/
theorem table_limit_invalid (t : Table) (count offset : Int) :
    (count < 0 ∨ offset < 0 → Table.limit t count offset = .error .invalid) ∧
    (0 ≤ count → 0 ≤ offset →
      Table.limit t count offset
        = .ok (⟨.table t, [], [], [], [], [], some ⟨count, offset⟩⟩, t)) := by
  constructor
  · intro h
    have hb : (decide (count < 0) || decide (offset < 0)) = true := by
      rcases h with h | h <;> simp [h]
    simp [Table.limit, Rows.make, hb]
  · intro h1 h2
    have hb : (decide (count < 0) || decide (offset < 0)) = false := by
      simp
      omega
    simp [Table.limit, Rows.make, hb]

/-- Witness for `table_limit_invalid` at a negative count and at a valid
window. -/
theorem table_limit_invalid_witness :
    Table.limit ⟨⟨"m", "q"⟩, 0⟩ (-1) 0 = .error .invalid :=
  (table_limit_invalid ⟨⟨"m", "q"⟩, 0⟩ (-1) 0).1 (Or.inl (by decide))

/-- Claim C8: every fluent combinator on a table source returns a new Query
value and leaves the receiver's state unchanged - the receiver threaded
through each call comes back identical, and in the one fallible combinator
(`limit`) the receiver is unchanged on both outcomes. -/
theorem queryable_immutable (t : Table) (cs : List Element) (c c2 : Cond)
    (other : Source) (jk : Option JoinKind) (ord : List (Element × OrdDir))
    (count offset : Int) :
    (Table.select t cs).2 = t ∧ (Table.select t cs).1 = ⟨.table t, cs, [], [], [], [], none⟩ ∧
    (Table.where' t c).2 = t ∧ (Table.where' t c).1 = ⟨.table t, [], [c], [], [], [], none⟩ ∧
    (Table.having t c2).2 = t ∧ (Table.having t c2).1 = ⟨.table t, [], [], [c2], [], [], none⟩ ∧
    (Table.join t other c jk).2 = t ∧
    (Table.join t other c jk).1 = Query.ofSource (.join (.table t) other c jk) ∧
    (Table.groupby t cs).2 = t ∧ (Table.groupby t cs).1 = ⟨.table t, [], [], [], cs, [], none⟩ ∧
    (Table.orderby t ord).2 = t ∧ (Table.orderby t ord).1 = ⟨.table t, [], [], [], [], ord, none⟩ ∧
    (Table.limit t count offset).map Prod.snd = (Table.limit t count offset).map (fun _ => t) ∧
    (Table.union t other).2 = t ∧
    (Table.union t other).1 = Query.ofSource (.setop (.table t) other .union) ∧
    (Table.intersection t other).2 = t ∧
    (Table.intersection t other).1 = Query.ofSource (.setop (.table t) other .intersection) ∧
    (Table.difference t other).2 = t ∧
    (Table.difference t other).1 = Query.ofSource (.setop (.table t) other .difference) := by
  refine ⟨rfl, rfl, rfl, rfl, rfl, rfl, rfl, rfl, rfl, rfl, rfl, rfl, ?_,
    rfl, rfl, rfl, rfl, rfl, rfl⟩
  unfold Table.limit Rows.make
  split <;> rfl

/-- Claim C10: with a defined ordinal column, a truthy lower bound appends the
lower-inclusive filter and a truthy upper bound the upper-exclusive filter, in
that order; falsy bounds append nothing, and with an undefined ordinal falsy
bounds raise no error. -/
theorem prepared_truthy_bounds (q : Query) (o : Element) (lower upper : Option Native) :
    (∃ q2, Prepared.call ⟨q, some o⟩ lower upper = .ok q2 ∧
      q2.prefilter = q.prefilter
        ++ (if truthyOpt lower then [Cond.geq o (lower.getD (.int 0))] else [])
        ++ (if truthyOpt upper then [Cond.lt o (upper.getD (.int 0))] else []) ∧
      q2.source = q.source ∧ q2.columns = q.columns ∧ q2.postfilter = q.postfilter ∧
      q2.grouping = q.grouping ∧ q2.ordering = q.ordering ∧ q2.rows = q.rows) ∧
    (truthyOpt lower = false → truthyOpt upper = false →
      Prepared.call ⟨q, none⟩ lower upper = .ok q) := by
  constructor
  · refine ⟨_, rfl, ?_, ?_, ?_, ?_, ?_, ?_, ?_⟩ <;>
      rcases lower with _ | l <;> rcases upper with _ | u <;>
      first
        | (by_cases hl : l.truthy <;> by_cases hu : u.truthy <;> simp [truthyOpt, hl, hu])
        | (by_cases hl : l.truthy <;> simp [truthyOpt, hl])
        | (by_cases hu : u.truthy <;> simp [truthyOpt, hu])
        | simp [truthyOpt]
  · intro h1 h2
    simp [Prepared.call, h1, h2]

/-- Witness for `prepared_truthy_bounds` at a concrete query, ordinal column
and bounds. -/
theorem prepared_truthy_bounds_witness :
    ∃ q2, Prepared.call ⟨Query.ofSource (.table ⟨⟨"m", "q"⟩, 0⟩), some ⟨"ord"⟩⟩
        (some (.int 3)) (some (.int 7)) = .ok q2 ∧
      q2.prefilter = [Cond.geq ⟨"ord"⟩ (.int 3), Cond.lt ⟨"ord"⟩ (.int 7)] := by
  obtain ⟨q2, hcall, hpre, -⟩ :=
    (prepared_truthy_bounds (Query.ofSource (.table ⟨⟨"m", "q"⟩, 0⟩)) ⟨"ord"⟩
      (some (.int 3)) (some (.int 7))).1
  refine ⟨q2, hcall, ?_⟩
  simpa [Query.ofSource, truthyOpt, Native.truthy] using hpre

/-- Claim C2 counterexample: with 1 feature column and 0 label columns the
assertion demands F+1 = 2 columns, not F+L = 1: the matching 1-column batch
fails the check while a 2-column batch is accepted and split. -/
theorem slicer_split_counterexample :
    (SlicerActor.make [⟨"f"⟩] []).apply (["x"] : List String) = .error .assertionError ∧
    (SlicerActor.make [⟨"f"⟩] []).apply (["x", "y"] : List String)
      = .ok (.many ["x"], .one "y") := by
  constructor <;> rfl

/-- Claim C2 (amended): the slicer actor built from F feature columns and L
label columns accepts exactly the batches of width F+L when L > 1 and F+1
when L <= 1, splitting them into the feature slice [0,F) and the label
selection (the slice [F,F+L) when L > 1, the scalar index F otherwise); any
other width fails the assertion-level invariant check. -/
theorem slicer_split (α : Type) (features labels : List Element) (cols : List α) :
    (cols.length ≠ (if labels.length > 1 then features.length + labels.length
        else features.length + 1) →
      (SlicerActor.make features labels).apply cols = .error .assertionError) ∧
    (cols.length = (if labels.length > 1 then features.length + labels.length
        else features.length + 1) →
      ∃ lv, (SlicerActor.make features labels).apply cols
          = .ok (.many (pySlice cols 0 features.length), lv) ∧
        (labels.length > 1 →
          lv = .many (pySlice cols features.length (features.length + labels.length))) ∧
        (labels.length ≤ 1 → ∃ v, lv = .one v ∧ cols.get? features.length = some v)) := by
  by_cases hL : labels.length > 1
  · constructor
    · intro hne
      simp only [SlicerActor.make, SlicerActor.apply, Sel.expected, hL, if_true]
      simp only [hL, if_true] at hne
      simp [hne]
    · intro heq
      simp only [hL, if_true] at heq
      refine ⟨.many (pySlice cols features.length (features.length + labels.length)),
        ?_, fun _ => rfl, fun hc => absurd hL (by omega)⟩
      simp [SlicerActor.make, SlicerActor.apply, Sel.expected, hL, heq, Slicer.run]
      try rfl
  · constructor
    · intro hne
      simp only [hL, if_false] at hne
      simp only [SlicerActor.make, SlicerActor.apply, Sel.expected, hL, if_false]
      simp [hne]
    · intro heq
      simp only [hL, if_false] at heq
      have hlt : features.length < cols.length := by omega
      have hv : cols.get? features.length = some (cols.get ⟨features.length, hlt⟩) :=
        List.get?_eq_get hlt
      refine ⟨.one (cols.get ⟨features.length, hlt⟩), ?_,
        fun hc => absurd hc hL, fun _ => ⟨cols.get ⟨features.length, hlt⟩, rfl, hv⟩⟩
      simp [SlicerActor.make, SlicerActor.apply, Sel.expected, hL, heq,
        Slicer.run, pyGetItem, hv]
      try rfl

/-- Witness for `slicer_split` with one feature and one label column on an
undersized batch. -/
theorem slicer_split_witness :
    (SlicerActor.make [⟨"f"⟩] [⟨"l"⟩]).apply ([] : List String) = .error .assertionError :=
  (slicer_split String [⟨"f"⟩] [⟨"l"⟩] []).1 (by decide)

/-- Signature binding either succeeds or raises `TypeError`; no other error
kind can come out of `bind_partial`. -/
theorem wrapped.bindArgs_ok_or_typeError (ps : List wrapped.Param) (nargs : Nat)
    (kwargs : List String) :
    wrapped.bindArgs ps nargs kwargs = .ok () ∨
    wrapped.bindArgs ps nargs kwargs = .error .typeError := by
  unfold wrapped.bindArgs
  split
  · exact Or.inr rfl
  · split
    · exact Or.inl rfl
    · exact Or.inr rfl

/-- Claim C4 counterexample: an unbindable keyword argument makes the actor
construction raise the signature-binding `TypeError`, not `Invalid` as the
claim states. -/
theorem function_actor_binding_counterexample :
    wrapped.FunActor.make ⟨true, [⟨"data", .posOrKw⟩, ⟨"n", .posOrKw⟩]⟩ 0 ["bogus"]
      = .error .typeError ∧
    wrapped.FunActor.make ⟨true, [⟨"data", .posOrKw⟩, ⟨"n", .posOrKw⟩]⟩ 0 ["bogus"]
      ≠ .error .invalid := by
  constructor
  · rfl
  · intro h
    exact absurd (Except.error.inj h) (by decide)

/-- Claim C4 (amended): wrapping a plain function stores the wrap-time
parameters without validation; the extra arguments are validated eagerly at
actor construction against the function's declared signature with its first
(data) parameter dropped, any unbindable argument raising the signature
binding's `TypeError` (not `Invalid`); and every function-based actor reports
`is_stateful() = False`. -/
theorem function_actor_binding (f : wrapped.PyFunction) (wparams : List String)
    (nargs : Nat) (kwargs : List String) :
    (f.isFunction = true → wrapped.Function.make f wparams = .ok ⟨f, wparams⟩) ∧
    (wrapped.FunActor.make f nargs kwargs = .ok ⟨f, nargs, kwargs⟩ ∨
      wrapped.FunActor.make f nargs kwargs = .error .typeError) ∧
    (wrapped.FunActor.make f nargs kwargs = .ok ⟨f, nargs, kwargs⟩ ↔
      wrapped.bindArgs (f.params.drop 1) nargs kwargs = .ok ()) ∧
    (∀ w : wrapped.Function, w.is_stateful = false) := by
  refine ⟨fun h => by simp [wrapped.Function.make, h], ?_, ?_, fun _ => rfl⟩
  · rcases wrapped.bindArgs_ok_or_typeError (f.params.drop 1) nargs kwargs with h | h
    · exact Or.inl (by unfold wrapped.FunActor.make; rw [h]; rfl)
    · exact Or.inr (by unfold wrapped.FunActor.make; rw [h]; rfl)
  · constructor
    · intro hmk
      rcases wrapped.bindArgs_ok_or_typeError (f.params.drop 1) nargs kwargs with h | h
      · exact h
      · rw [show wrapped.FunActor.make f nargs kwargs = .error .typeError from
          by unfold wrapped.FunActor.make; rw [h]; rfl] at hmk
        exact Except.noConfusion hmk
    · intro h
      unfold wrapped.FunActor.make
      rw [h]
      rfl

/-- Witness for `function_actor_binding` at a concrete two-parameter function
with a bindable extra keyword. -/
theorem function_actor_binding_witness :
    wrapped.Function.make ⟨true, [⟨"data", .posOrKw⟩, ⟨"n", .posOrKw⟩]⟩ ["n"]
      = .ok ⟨⟨true, [⟨"data", .posOrKw⟩, ⟨"n", .posOrKw⟩]⟩, ["n"]⟩ :=
  (function_actor_binding ⟨true, [⟨"data", .posOrKw⟩, ⟨"n", .posOrKw⟩]⟩ ["n"] 0 ["n"]).1 rfl

/-- Claim C5 counterexample: a class whose `train` attribute exists but is not
callable is wrapped without error, yet `is_stateful()` reports `True`
(the check is `hasattr`, not callability), contradicting the claim that the
absence of a train callable makes the actor report stateless. -/
theorem class_actor_missing_counterexample :
    wrapped.Class.actor wrapped.exClass [] = .ok ⟨wrapped.exClass, wrapped.withDefaults []⟩ ∧
    (wrapped.Class.mk wrapped.exClass (wrapped.withDefaults [])).is_stateful = true ∧
    wrapped.exClass.callableAttr "train" = false := by
  refine ⟨rfl, rfl, rfl⟩

/-- Claim C5 (amended): wrapping a plain class raises `Missing` exactly when
the class lacks a callable under some mapped target name other than `train`;
when wrapping succeeds, `is_stateful()` reports exactly the presence of an
attribute under the mapped train name (callable or not). -/
theorem class_actor_missing (cls : wrapped.PyClass) (mapping : List (String × String)) :
    (wrapped.Class.actor cls mapping = .error .missing ↔
      ∃ p ∈ wrapped.withDefaults mapping, p.1 ≠ "train" ∧ cls.callableAttr p.2 = false) ∧
    (∀ w, wrapped.Class.actor cls mapping = .ok w →
      (cls.hasattr (wrapped.trainTarget mapping) = false → w.is_stateful = false) ∧
      (cls.hasattr (wrapped.trainTarget mapping) = true → w.is_stateful = true)) := by
  constructor
  · by_cases hP : (((wrapped.withDefaults mapping).filter (fun p => p.1 != "train")).all
        (fun p => cls.callableAttr p.2)) = true
    · constructor
      · intro h
        simp only [wrapped.Class.actor, hP, if_true] at h
        exact Except.noConfusion h
      · rintro ⟨p, hp, hne, hc⟩
        rw [List.all_eq_true] at hP
        have hmem : p ∈ (wrapped.withDefaults mapping).filter (fun q => q.1 != "train") := by
          rw [List.mem_filter]
          exact ⟨hp, by simpa using hne⟩
        have hcall := hP p hmem
        simp only [hc] at hcall
        exact Bool.noConfusion hcall
    · constructor
      · intro _
        rw [List.all_eq_true] at hP
        push_neg at hP
        obtain ⟨p, hpf, hc⟩ := hP
        rw [List.mem_filter] at hpf
        refine ⟨p, hpf.1, by simpa using hpf.2, by simpa using hc⟩
      · intro _
        simp [wrapped.Class.actor, hP]
  · intro w hw
    by_cases hP : (((wrapped.withDefaults mapping).filter (fun p => p.1 != "train")).all
        (fun p => cls.callableAttr p.2)) = true
    · simp only [wrapped.Class.actor, hP, if_true] at hw
      obtain rfl : w = ⟨cls, wrapped.withDefaults mapping⟩ := (Except.ok.inj hw).symm
      constructor <;> intro h <;>
        simpa [wrapped.Class.is_stateful, wrapped.trainTarget] using h
    · simp only [wrapped.Class.actor, hP, if_false] at hw
      exact Except.noConfusion hw

/-- Witness for `class_actor_missing` on a class carrying a non-callable
train attribute and the default mapping. -/
theorem class_actor_missing_witness :
    (wrapped.Class.mk wrapped.exClass (wrapped.withDefaults [])).is_stateful = true :=
  ((class_actor_missing wrapped.exClass []).2 ⟨wrapped.exClass, wrapped.withDefaults []⟩
    rfl).2 rfl

/-- Claim C6: composing a source operator over a non-Origin left operand
raises `Invalid`; over Origin it yields a segment whose apply and train paths
start from distinct fresh 0-input/1-output workers, with a label path present
exactly when a label spec was given, built by splicing the 1-input/2-output
extraction worker after the train path: its input subscribes to the train
publisher, its output 0 feeds the new train tail and its output 1 the new
label tail. -/
theorem source_compose_origin (op : flow.Operator) (g0 : Nat) :
    (∀ s : flow.Segment, op.compose (.segment s) g0 = .error .invalid) ∧
    (op._label = none →
      op.compose .origin g0 = .ok
        (⟨flow.Path.single (.worker op._apply 0 1 g0),
          flow.Path.single (.worker op._train 0 1 (g0 + 1)), none⟩, [])) ∧
    (∀ l, op._label = some l →
      op.compose .origin g0 = .ok
        (⟨flow.Path.single (.worker op._apply 0 1 g0),
          ⟨.worker op._train 0 1 (g0 + 1), .future (g0 + 2)⟩,
          some ⟨.worker op._train 0 1 (g0 + 1), .future (g0 + 3)⟩⟩,
         [⟨g0 + 1, 0, g0 + 4, 0⟩, ⟨g0 + 4, 0, g0 + 2, 0⟩, ⟨g0 + 4, 1, g0 + 3, 0⟩])) ∧
    (∀ seg edges, op.compose .origin g0 = .ok (seg, edges) →
      (seg.label.isSome ↔ op._label.isSome) ∧ seg.apply.head.gid ≠ seg.train.head.gid) := by
  refine ⟨fun s => rfl, ?_, ?_, ?_⟩
  · intro h
    simp [flow.Operator.compose, h]
  · intro l h
    simp [flow.Operator.compose, h, flow.Path.single, flow.Path.extend, flow.Path.publisher,
      flow.GNode.gid]
  · intro seg edges hok
    rcases hl : op._label with _ | l
    · simp only [flow.Operator.compose, hl] at hok
      obtain ⟨h1, h2⟩ := Prod.mk.inj (Except.ok.inj hok)
      subst h1
      refine ⟨by simp [hl], ?_⟩
      show g0 ≠ g0 + 1
      omega
    · simp only [flow.Operator.compose, hl] at hok
      obtain ⟨h1, h2⟩ := Prod.mk.inj (Except.ok.inj hok)
      subst h1
      refine ⟨by simp [hl], ?_⟩
      show g0 ≠ g0 + 1
      omega

/-- Witness for `source_compose_origin`: a non-Origin left operand is
rejected at a concrete operator and segment. -/
theorem source_compose_origin_witness :
    (flow.Operator.make "a" none none).compose
      (.segment ⟨flow.Path.single (.future 9), flow.Path.single (.future 9), none⟩) 0
      = .error .invalid :=
  (source_compose_origin (flow.Operator.make "a" none none) 0).1
    ⟨flow.Path.single (.future 9), flow.Path.single (.future 9), none⟩

/-- Filtering by gid distributes over table concatenation. -/
theorem assembly.filterGid_append (t1 t2 : List assembly.Symbol) (g : Nat) :
    assembly.filterGid (t1 ++ t2) g = assembly.filterGid t1 g ++ assembly.filterGid t2 g := by
  simp [assembly.filterGid]

/-- Gids of a concatenated table. -/
theorem assembly.tableGids_append (t1 t2 : List assembly.Symbol) :
    assembly.tableGids (t1 ++ t2) = assembly.tableGids t1 ++ assembly.tableGids t2 := by
  simp [assembly.tableGids]

/-- Filtering a singleton emitted symbol. -/
theorem assembly.filterGid_single (f : assembly.Upstream) (g' g : Nat) :
    assembly.filterGid [assembly.symbolOfNode f g'] g
      = if g' = g then [assembly.symbolOfNode f g'] else [] := by
  by_cases h : g' = g <;> simp [assembly.filterGid, assembly.symbolOfNode, h]

/-- The empty table is coherent. -/
theorem assembly.coherent_nil (f : assembly.Upstream) : assembly.coherent f [] := by
  intro g
  simp [assembly.filterGid, assembly.tableGids]

/-- Adding one node preserves coherence. -/
theorem assembly.coherent_add (f : assembly.Upstream) (t : List assembly.Symbol) (g' : Nat)
    (h : assembly.coherent f t) : assembly.coherent f (assembly.SymTable.add f t g') := by
  intro g
  have ht := h g
  unfold assembly.SymTable.add
  by_cases hc : g' ∈ assembly.tableGids t
  · rw [if_pos (by simpa [List.contains] using hc)]
    exact ht
  · rw [if_neg (by simpa [List.contains] using hc)]
    rw [assembly.filterGid_append, assembly.tableGids_append, assembly.filterGid_single, ht]
    by_cases hg : g' = g
    · subst hg
      have hc' : ∀ x ∈ t, ¬x.instruction.gid = g' := by
        simpa [assembly.tableGids] using hc
      simp [hc, hc', assembly.tableGids, assembly.symbolOfNode]
      exact hc'
    · have hiff : (g ∈ assembly.tableGids t ++ assembly.tableGids [assembly.symbolOfNode f g'])
          ↔ g ∈ assembly.tableGids t := by
        simp [assembly.tableGids, assembly.symbolOfNode, Ne.symm hg]
      rw [if_neg hg, List.append_nil, if_congr hiff rfl rfl]

/-- Folding the visit sequence preserves coherence. -/
theorem assembly.coherent_foldl (f : assembly.Upstream) (visits : List Nat) :
    ∀ t, assembly.coherent f t
      → assembly.coherent f (visits.foldl (assembly.SymTable.add f) t) := by
  induction visits with
  | nil => exact fun t h => h
  | cons a rest ih => exact fun t h => ih _ (assembly.coherent_add f t a h)

/-- Adding a node never drops known gids. -/
theorem assembly.add_gids_sub (f : assembly.Upstream) (t : List assembly.Symbol) (g' x : Nat)
    (hx : x ∈ assembly.tableGids t) :
    x ∈ assembly.tableGids (assembly.SymTable.add f t g') := by
  unfold assembly.SymTable.add
  split
  · exact hx
  · rw [assembly.tableGids_append]
    exact List.mem_append_left _ hx

/-- Folding never drops known gids. -/
theorem assembly.foldl_gids_sub (f : assembly.Upstream) (visits : List Nat) :
    ∀ t x, x ∈ assembly.tableGids t
      → x ∈ assembly.tableGids (visits.foldl (assembly.SymTable.add f) t) := by
  induction visits with
  | nil => exact fun t x hx => hx
  | cons a rest ih => exact fun t x hx => ih _ _ (assembly.add_gids_sub f t a x hx)

/-- Every visited node identity ends up in the folded table. -/
theorem assembly.mem_foldl_gids (f : assembly.Upstream) (visits : List Nat) :
    ∀ t g, g ∈ visits → g ∈ assembly.tableGids (visits.foldl (assembly.SymTable.add f) t) := by
  induction visits with
  | nil => intro t g hg; cases hg
  | cons a rest ih =>
    intro t g hg
    rcases List.mem_cons.mp hg with rfl | hg'
    · refine assembly.foldl_gids_sub f rest (assembly.SymTable.add f t g) g ?_
      unfold assembly.SymTable.add
      split
      · next hcond => exact (by simpa [List.contains] using hcond)
      · rw [assembly.tableGids_append]
        exact List.mem_append_right _ (by simp [assembly.tableGids, assembly.symbolOfNode])
    · exact ih _ _ hg'

/-- Claim C1: linking a visited path deduplicates by node identity - every
visited node contributes exactly one symbol (whose arguments reference the
instruction of each upstream producer, once per input subscription, so a
fan-out producer is referenced once per consumer), and adding an
already-known gid to the symbol table is a no-op. -/
theorem assembly_dedup_by_gid (f : assembly.Upstream) (visits : List Nat) (g : Nat)
    (hmem : g ∈ visits) :
    assembly.filterGid (assembly.linkPath f visits) g = [assembly.symbolOfNode f g] ∧
    (∀ t, g ∈ assembly.tableGids t → assembly.SymTable.add f t g = t) ∧
    (∀ b a : Nat,
      (assembly.symbolOfNode f b).arguments.count (assembly.Instruction.mk a) = (f b).count a) := by
  refine ⟨?_, ?_, ?_⟩
  · have hcoh := assembly.coherent_foldl f visits [] (assembly.coherent_nil f)
    have hg : g ∈ assembly.tableGids (assembly.linkPath f visits) :=
      assembly.mem_foldl_gids f visits [] g hmem
    rw [assembly.linkPath] at hg ⊢
    rw [hcoh g, if_pos hg]
  · intro t ht
    unfold assembly.SymTable.add
    rw [if_pos (by simpa [List.contains] using ht)]
  · intro b a
    unfold assembly.symbolOfNode
    exact List.count_map_of_injective _ _ (fun x y hxy => by injection hxy) a

/-- Witness for `assembly_dedup_by_gid` on the fan-out wiring where node 0
feeds nodes 1 and 2 and is visited twice. -/
theorem assembly_dedup_by_gid_witness :
    assembly.filterGid (assembly.linkPath assembly.exUp [0, 1, 0, 2]) 0
      = [assembly.symbolOfNode assembly.exUp 0] :=
  (assembly_dedup_by_gid assembly.exUp [0, 1, 0, 2] 0 (by decide)).1
